import Mathlib

/-!
Shallow embedding of `examples/nvRPC/SharedMemoryService/server.cc`:
an external SystemV shared-memory segment manager
(`ExternalSharedMemoryManager`) with a cached get-or-attach operation,
bounded partial-segment view descriptors, an explicit release, and the
`SimpleContext::ExecuteRPC` request handler built on top of them.

Modelling conventions:
- `size_t` arithmetic is `Nat` with explicit reduction mod `2 ^ 64` at the
  one place the source adds two externally supplied sizes (`offset + size`
  in `Acquire`'s `CHECK_LE`).
- `std::map<size_t, std::shared_ptr<SystemV>>` is an association list from
  keys to segment handles.
- Shared ownership (`std::shared_ptr<SystemV>`) is modelled by tracking the
  set of owners explicitly: a segment instance is held (mapped) while the
  registry cache or some live view references it.  Each successful attach
  produces a handle with a fresh instance number `inst`, so distinct
  attaches to the same shm id are distinguishable.
- Segment memory is word-addressed by byte offset: `mem shm_id b` is the
  64-bit word whose first byte sits at byte offset `b` of segment
  `shm_id`.  Distinct byte offsets name distinct cells (byte-level aliasing
  of overlapping unaligned words is not exercised by any property here).
- glog `CHECK*` macros are fatal: a failed check aborts the process.  The
  handler outcome type therefore distinguishes a completed response from a
  fatal abort, and which check fired is recorded.
-/

/-- 2 ^ 64, the modulus of `size_t` arithmetic on the target platform. -/
def U64 : Nat := 2 ^ 64

/-- One attachment to a SystemV shared-memory segment
(`trtlab::SystemV`): the shm id it was attached from, a fresh instance
number distinguishing this attach from other attaches to the same id, and
the byte size reported by the OS at attach time. -/
structure SystemV where
  shm_id : Nat
  inst : Nat
  size : Nat
  deriving DecidableEq

/-- A bounded view into a segment
(`ExternalSharedMemoryManager::PartialSegmentDescriptor`): holds a shared
reference to the segment (field `m_Segment`), a byte offset and a byte
size.  Constructed as `Descriptor<SystemV>((*segment)[offset], size)`. -/
structure PartialSegmentDescriptor where
  segment : SystemV
  offset : Nat
  size : Nat
  deriving DecidableEq

/-- Modelled from the spec: the attach boundary
`Attach(shm_id: u64) -> (base_address, size) | AttachError` (the
implementation, `trtlab::SystemV::Attach` in
`tensorrt/laboratory/core/memory/system_v.h`, is not under `src/`).
`segSize id = some sz` means the external segment `id` exists and maps
with byte size `sz`; `none` means the attach fails. -/
structure World where
  segSize : Nat → Option Nat

/-- Error of the attach boundary: the named external segment does not
exist or cannot be mapped. -/
inductive AttachError where
  | noSuchSegment
  deriving DecidableEq

/-- Errors of `Acquire`: the underlying attach failed, or the requested
range failed the `CHECK_LE(offset + size, segment->Size())` bound. -/
inductive AcquireError where
  | attachError (e : AttachError)
  | rangeError
  deriving DecidableEq

/-- Errors of view access: the access is out of the view's bounds, or the
view's segment is no longer mapped (use after unmap — cannot actually
occur while the view exists, precisely because a view is an owner). -/
inductive AccessError where
  | rangeError
  | staleSegment
  deriving DecidableEq

/-- Association-list lookup, the model of `std::map::find`. -/
def alistLookup {α : Type} : List (Nat × α) → Nat → Option α
  | [], _ => none
  | (k2, v) :: rest, k => if k2 = k then some v else alistLookup rest k

/-- Association-list insert, the model of `m_AttachedSegments[shm_id] =
segment` (the source only inserts keys it has just found absent). -/
def alistInsert {α : Type} (l : List (Nat × α)) (k : Nat) (v : α) :
    List (Nat × α) :=
  (k, v) :: l

/-- Association-list erase, the model of `std::map::erase(shm_id)`. -/
def alistErase {α : Type} : List (Nat × α) → Nat → List (Nat × α)
  | [], _ => []
  | (k2, v) :: rest, k =>
    if k2 = k then alistErase rest k else (k2, v) :: alistErase rest k

/-- The state of an `ExternalSharedMemoryManager`, together with the
parts of the process state its operations can see:
`m_AttachedSegments` is the id → segment cache; `liveViews` are the
`PartialSegmentDescriptor`s currently alive (each is a shared owner of
its segment); `nextInst` counts attaches performed so far and numbers the
next one; `mem shm_id b` is the 64-bit word at byte offset `b` of the
external segment `shm_id`. -/
structure ExternalSharedMemoryManager where
  m_AttachedSegments : List (Nat × SystemV)
  liveViews : List PartialSegmentDescriptor
  nextInst : Nat
  mem : Nat → Nat → Nat

namespace ExternalSharedMemoryManager

/-- A segment instance is held (its mapping is alive) while the registry
cache or some live view owns a shared reference to it. -/
def segmentHeld (s : ExternalSharedMemoryManager) (seg : SystemV) : Bool :=
  s.m_AttachedSegments.any (fun p => decide (p.2 = seg)) ||
    s.liveViews.any (fun v => decide (v.segment = seg))

/-- `ExternalSharedMemoryManager::GetOrAttachToShmID` (server.cc lines
114–130): look the id up in `m_AttachedSegments`; on a hit return the
cached segment unchanged; on a miss call `SystemV::Attach(shm_id)`,
store the new segment in the cache and return it. -/
def GetOrAttachToShmID (w : World) (s : ExternalSharedMemoryManager)
    (shm_id : Nat) :
    Except AttachError (SystemV × ExternalSharedMemoryManager) :=
  match alistLookup s.m_AttachedSegments shm_id with
  | some seg => Except.ok (seg, s)
  | none =>
    match w.segSize shm_id with
    | none => Except.error AttachError.noSuchSegment
    | some sz =>
      Except.ok (⟨shm_id, s.nextInst, sz⟩,
        { s with
          m_AttachedSegments :=
            alistInsert s.m_AttachedSegments shm_id ⟨shm_id, s.nextInst, sz⟩,
          nextInst := s.nextInst + 1 })

/-- Register a freshly constructed view as a live owner of its segment. -/
def addView (s : ExternalSharedMemoryManager)
    (d : PartialSegmentDescriptor) : ExternalSharedMemoryManager :=
  { s with liveViews := d :: s.liveViews }

/-- Drop the first live occurrence of a view (its `unique_ptr` was
destroyed at end of scope). -/
def dropView (s : ExternalSharedMemoryManager)
    (d : PartialSegmentDescriptor) : ExternalSharedMemoryManager :=
  { s with liveViews := removeFirstView s.liveViews d }
where
  removeFirstView :
      List PartialSegmentDescriptor → PartialSegmentDescriptor →
      List PartialSegmentDescriptor
    | [], _ => []
    | x :: rest, d => if x = d then rest else x :: removeFirstView rest d

/-- `ExternalSharedMemoryManager::Acquire` (server.cc lines 99–104):
get-or-attach the segment, check
`CHECK_LE(offset + size, segment->Size())` — the sum is computed in
`size_t`, hence mod `2 ^ 64` — and construct a
`PartialSegmentDescriptor` over `[offset, offset + size)`.  The failed
check is modelled as `rangeError` (in the reference binary the `CHECK`
is a fatal abort; see `ExecuteRPC`). -/
def Acquire (w : World) (s : ExternalSharedMemoryManager)
    (shm_id offset size : Nat) :
    Except AcquireError
      (PartialSegmentDescriptor × ExternalSharedMemoryManager) :=
  match GetOrAttachToShmID w s shm_id with
  | Except.error e => Except.error (AcquireError.attachError e)
  | Except.ok (segment, s1) =>
    if (offset + size) % U64 ≤ segment.size then
      Except.ok (⟨segment, offset, size⟩, addView s1 ⟨segment, offset, size⟩)
    else
      Except.error AcquireError.rangeError

/-- `ExternalSharedMemoryManager::Release` (server.cc lines 106–111):
erase the id from `m_AttachedSegments`; when the id is absent the erase
removes nothing and only a diagnostic is logged. -/
def Release (s : ExternalSharedMemoryManager) (shm_id : Nat) :
    ExternalSharedMemoryManager :=
  { s with m_AttachedSegments := alistErase s.m_AttachedSegments shm_id }

end ExternalSharedMemoryManager

/-- Pointwise update of segment memory: write word `v` at byte offset
`off` of segment `shm_id`. -/
def memUpd (m : Nat → Nat → Nat) (shm_id off v : Nat) : Nat → Nat → Nat :=
  fun id2 off2 => if id2 = shm_id ∧ off2 = off then v else m id2 off2

/-- Modelled from the spec: typed element read through a view
(`CastToArray<size_t>()` of `trtlab::Descriptor`, declared in
`tensorrt/laboratory/core/memory/descriptor.h`, not under `src/`).
Reads the `i`-th 64-bit word of the view; per the spec, access is
bounds-checked against the view's length and fails with a range error
rather than touching memory outside the view; access through a view
whose segment is unmapped is a stale-segment fault. -/
def viewReadWord (s : ExternalSharedMemoryManager)
    (d : PartialSegmentDescriptor) (i : Nat) : Except AccessError Nat :=
  if s.segmentHeld d.segment then
    if 8 * i + 8 ≤ d.size then
      Except.ok (s.mem d.segment.shm_id (d.offset + 8 * i))
    else
      Except.error AccessError.rangeError
  else
    Except.error AccessError.staleSegment

/-- Modelled from the spec: typed element write through a view, with the
same bounds and liveness checks as `viewReadWord`. -/
def viewWriteWord (s : ExternalSharedMemoryManager)
    (d : PartialSegmentDescriptor) (i v : Nat) :
    Except AccessError ExternalSharedMemoryManager :=
  if s.segmentHeld d.segment then
    if 8 * i + 8 ≤ d.size then
      Except.ok { s with mem := memUpd s.mem d.segment.shm_id (d.offset + 8 * i) v }
    else
      Except.error AccessError.rangeError
  else
    Except.error AccessError.staleSegment

/-- The optional shared-memory locator of a request (`simple.SysV`
message: `shm_id`, `offset`, `size`, all u64). -/
structure SysVLocator where
  shm_id : Nat
  offset : Nat
  size : Nat
  deriving DecidableEq

/-- A `simple::Input` request: `batch_id` and the optional `sysv`
locator. -/
structure Input where
  batch_id : Nat
  sysv : Option SysVLocator
  deriving DecidableEq

/-- A `simple::Output` response: the echoed `batch_id`. -/
structure Output where
  batch_id : Nat
  deriving DecidableEq

/-- Which fatal `CHECK` fired in the handler. -/
inductive CheckFailure where
  | nullDescriptor
  | attachFailure
  | rangeCheck
  | batchIdMismatch
  | markerMismatch
  deriving DecidableEq

/-- Outcome of one `ExecuteRPC` call: either a completed response
(`FinishResponse` reached) with the resulting process state, or a fatal
abort — a glog `CHECK` fired and the process dies — with the state at
the moment of the abort. -/
inductive RpcOutcome where
  | response (out : Output) (s : ExternalSharedMemoryManager)
  | fatalAbort (reason : CheckFailure) (s : ExternalSharedMemoryManager)

/-- The response batch id, when the handler completed a response. -/
def RpcOutcome.respBatchId : RpcOutcome → Option Nat
  | RpcOutcome.response out _ => some out.batch_id
  | RpcOutcome.fatalAbort _ _ => none

/-- Whether the handler died on a fatal `CHECK` (process abort). -/
def RpcOutcome.aborted : RpcOutcome → Bool
  | RpcOutcome.response _ _ => false
  | RpcOutcome.fatalAbort _ _ => true

/-- The process state at the end of the call (at the abort, for a fatal
outcome). -/
def RpcOutcome.finalState : RpcOutcome → ExternalSharedMemoryManager
  | RpcOutcome.response _ s => s
  | RpcOutcome.fatalAbort _ s => s

/-- The sentinel value `0xDEADBEEF` checked in the second word. -/
def MARKER : Nat := 0xDEADBEEF

/-- `SimpleContext::ExecuteRPC` (server.cc lines 152–168): when the
request carries a `sysv` locator, acquire a view over it (else the
descriptor stays null and `CHECK(mdesc)` aborts); cast the view to a
`size_t` array; `CHECK_EQ(array[0], input.batch_id())`;
`CHECK_EQ(array[1], 0xDEADBEEF)`; write `array[1] = input.batch_id()`;
set the response batch id and finish.  Every failed check is a fatal
process abort; the view descriptor is destroyed when the handler scope
ends. -/
def ExecuteRPC (w : World) (s : ExternalSharedMemoryManager)
    (input : Input) : RpcOutcome :=
  match input.sysv with
  | none => RpcOutcome.fatalAbort CheckFailure.nullDescriptor s
  | some loc =>
    match ExternalSharedMemoryManager.Acquire w s loc.shm_id loc.offset loc.size with
    | Except.error (AcquireError.attachError _) =>
      RpcOutcome.fatalAbort CheckFailure.attachFailure s
    | Except.error AcquireError.rangeError =>
      RpcOutcome.fatalAbort CheckFailure.rangeCheck s
    | Except.ok (mdesc, s1) =>
      match viewReadWord s1 mdesc 0 with
      | Except.error _ => RpcOutcome.fatalAbort CheckFailure.rangeCheck s1
      | Except.ok a0 =>
        if a0 = input.batch_id then
          match viewReadWord s1 mdesc 1 with
          | Except.error _ => RpcOutcome.fatalAbort CheckFailure.rangeCheck s1
          | Except.ok a1 =>
            if a1 = MARKER then
              match viewWriteWord s1 mdesc 1 input.batch_id with
              | Except.error _ => RpcOutcome.fatalAbort CheckFailure.rangeCheck s1
              | Except.ok s2 =>
                RpcOutcome.response ⟨input.batch_id⟩ (s2.dropView mdesc)
            else
              RpcOutcome.fatalAbort CheckFailure.markerMismatch s1
        else
          RpcOutcome.fatalAbort CheckFailure.batchIdMismatch s1

/-- Whether an `Except` computation succeeded. -/
def isOkB {ε α : Type} : Except ε α → Bool
  | Except.ok _ => true
  | Except.error _ => false

/-! ### Association-list lemmas -/

theorem alistLookup_insert_self {α : Type} (l : List (Nat × α)) (k : Nat)
    (v : α) : alistLookup (alistInsert l k v) k = some v := by
  simp [alistInsert, alistLookup]

theorem alistLookup_insert_ne {α : Type} (l : List (Nat × α)) (k k2 : Nat)
    (v : α) (h : k2 ≠ k) :
    alistLookup (alistInsert l k v) k2 = alistLookup l k2 := by
  simp only [alistInsert, alistLookup]
  rw [if_neg (Ne.symm h)]

theorem alistLookup_erase_self {α : Type} (l : List (Nat × α)) (k : Nat) :
    alistLookup (alistErase l k) k = none := by
  induction l with
  | nil => rfl
  | cons p rest ih =>
    obtain ⟨k2, v⟩ := p
    by_cases h : k2 = k
    · simp [alistErase, h, ih]
    · simp [alistErase, alistLookup, h, ih]

theorem alistLookup_erase_ne {α : Type} (l : List (Nat × α)) (k k2 : Nat)
    (h : k2 ≠ k) :
    alistLookup (alistErase l k) k2 = alistLookup l k2 := by
  induction l with
  | nil => rfl
  | cons p rest ih =>
    obtain ⟨k3, v⟩ := p
    simp only [alistErase, alistLookup]
    by_cases h3 : k3 = k
    · rw [if_pos h3, if_neg (fun he => h (he.symm.trans h3)), ih]
    · rw [if_neg h3]
      simp only [alistLookup]
      by_cases h4 : k3 = k2
      · rw [if_pos h4, if_pos h4]
      · rw [if_neg h4, if_neg h4, ih]

theorem alistErase_absent {α : Type} (l : List (Nat × α)) (k : Nat)
    (h : alistLookup l k = none) : alistErase l k = l := by
  induction l with
  | nil => rfl
  | cons p rest ih =>
    obtain ⟨k2, v⟩ := p
    by_cases h2 : k2 = k
    · simp [alistLookup, h2] at h
    · simp [alistLookup, h2] at h
      simp [alistErase, h2, ih h]

theorem alistErase_idem {α : Type} (l : List (Nat × α)) (k : Nat) :
    alistErase (alistErase l k) k = alistErase l k :=
  alistErase_absent _ _ (alistLookup_erase_self l k)

/-! ### Preservation lemmas for the manager operations -/

namespace ExternalSharedMemoryManager

theorem getOrAttach_preserves (w : World) (s : ExternalSharedMemoryManager)
    (shm_id : Nat) (seg : SystemV) (s1 : ExternalSharedMemoryManager)
    (h : GetOrAttachToShmID w s shm_id = Except.ok (seg, s1)) :
    s1.mem = s.mem ∧ s1.liveViews = s.liveViews := by
  unfold GetOrAttachToShmID at h
  cases hl : alistLookup s.m_AttachedSegments shm_id with
  | some seg2 =>
    rw [hl] at h
    cases h
    exact ⟨rfl, rfl⟩
  | none =>
    rw [hl] at h
    cases hw : w.segSize shm_id with
    | none => rw [hw] at h; cases h
    | some sz =>
      rw [hw] at h
      cases h
      exact ⟨rfl, rfl⟩

theorem acquire_of_getOk (w : World) (s : ExternalSharedMemoryManager)
    (shm_id offset size : Nat) (seg : SystemV)
    (s1 : ExternalSharedMemoryManager)
    (hg : GetOrAttachToShmID w s shm_id = Except.ok (seg, s1)) :
    Acquire w s shm_id offset size =
      if (offset + size) % U64 ≤ seg.size then
        Except.ok (⟨seg, offset, size⟩, addView s1 ⟨seg, offset, size⟩)
      else
        Except.error AcquireError.rangeError := by
  unfold Acquire
  rw [hg]

theorem acquire_of_getErr (w : World) (s : ExternalSharedMemoryManager)
    (shm_id offset size : Nat) (e : AttachError)
    (hg : GetOrAttachToShmID w s shm_id = Except.error e) :
    Acquire w s shm_id offset size =
      Except.error (AcquireError.attachError e) := by
  unfold Acquire
  rw [hg]

theorem acquire_ok_shape (w : World) (s : ExternalSharedMemoryManager)
    (shm_id offset size : Nat) (d : PartialSegmentDescriptor)
    (s2 : ExternalSharedMemoryManager)
    (h : Acquire w s shm_id offset size = Except.ok (d, s2)) :
    ∃ s1, GetOrAttachToShmID w s shm_id = Except.ok (d.segment, s1) ∧
      d.offset = offset ∧ d.size = size ∧ s2 = addView s1 d ∧
      (offset + size) % U64 ≤ d.segment.size := by
  cases hg : GetOrAttachToShmID w s shm_id with
  | error e =>
    rw [acquire_of_getErr w s shm_id offset size e hg] at h
    cases h
  | ok p =>
    obtain ⟨seg, s1⟩ := p
    rw [acquire_of_getOk w s shm_id offset size seg s1 hg] at h
    by_cases hb : (offset + size) % U64 ≤ seg.size
    · rw [if_pos hb] at h
      cases h
      exact ⟨s1, rfl, rfl, rfl, rfl, hb⟩
    · rw [if_neg hb] at h
      cases h

theorem acquire_view_live (w : World) (s : ExternalSharedMemoryManager)
    (shm_id offset size : Nat) (d : PartialSegmentDescriptor)
    (s2 : ExternalSharedMemoryManager)
    (h : Acquire w s shm_id offset size = Except.ok (d, s2)) :
    d ∈ s2.liveViews := by
  obtain ⟨s1, _, _, _, hs2, _⟩ := acquire_ok_shape w s shm_id offset size d s2 h
  subst hs2
  exact List.mem_cons_self _ _

theorem segmentHeld_of_view (s : ExternalSharedMemoryManager)
    (d : PartialSegmentDescriptor) (h : d ∈ s.liveViews) :
    s.segmentHeld d.segment = true := by
  unfold segmentHeld
  apply Bool.or_eq_true_iff.mpr
  right
  rw [List.any_eq_true]
  exact ⟨d, h, by simp⟩

theorem release_liveViews (s : ExternalSharedMemoryManager) (shm_id : Nat) :
    (s.Release shm_id).liveViews = s.liveViews := rfl

theorem release_mem (s : ExternalSharedMemoryManager) (shm_id : Nat) :
    (s.Release shm_id).mem = s.mem := rfl

end ExternalSharedMemoryManager

/-! ### Concrete fixtures used by witnesses and counterexamples -/

/-- Concrete segment memory: segment 7 carries `[42, 0xDEADBEEF, 0, ...]`. -/
def mem0 : Nat → Nat → Nat := fun id b =>
  if id = 7 ∧ b = 0 then 42
  else if id = 7 ∧ b = 8 then 0xDEADBEEF
  else 0

/-- Concrete external world: segment 7 exists with byte size 16; no other
segment exists. -/
def w0 : World := ⟨fun id => if id = 7 then some 16 else none⟩

/-- Segment 7, first attach instance, size 16. -/
def seg7 : SystemV := ⟨7, 0, 16⟩

/-- Manager state with an empty cache. -/
def s0 : ExternalSharedMemoryManager := ⟨[], [], 0, mem0⟩

/-- Manager state with segment 7 already attached and cached. -/
def sC : ExternalSharedMemoryManager := ⟨[(7, seg7)], [], 1, mem0⟩

open ExternalSharedMemoryManager

/-! ### Claim theorems -/

/-- C2: `GetOrAttachToShmID(id)` returns the cached shared handle with no
new attach (state unchanged, attach counter untouched) when `id` is in the
cache; when absent it attaches to the resource named by `id`, inserts the
new handle into the cache and returns it; hence a second sequential call
with no intervening `Release` returns the same handle over the same
mapping. -/
theorem getOrAttach_cache_semantics (w : World)
    (s : ExternalSharedMemoryManager) (shm_id : Nat) :
    (∀ seg, alistLookup s.m_AttachedSegments shm_id = some seg →
      GetOrAttachToShmID w s shm_id = Except.ok (seg, s)) ∧
    (∀ sz, alistLookup s.m_AttachedSegments shm_id = none →
      w.segSize shm_id = some sz →
      GetOrAttachToShmID w s shm_id =
        Except.ok (⟨shm_id, s.nextInst, sz⟩,
          { s with
            m_AttachedSegments :=
              alistInsert s.m_AttachedSegments shm_id
                ⟨shm_id, s.nextInst, sz⟩,
            nextInst := s.nextInst + 1 })) ∧
    (∀ seg s1, GetOrAttachToShmID w s shm_id = Except.ok (seg, s1) →
      GetOrAttachToShmID w s1 shm_id = Except.ok (seg, s1)) := by
  refine ⟨?_, ?_, ?_⟩
  · intro seg h
    unfold GetOrAttachToShmID
    rw [h]
  · intro sz h hw
    unfold GetOrAttachToShmID
    rw [h, hw]
  · intro seg s1 h
    unfold GetOrAttachToShmID at h
    cases hl : alistLookup s.m_AttachedSegments shm_id with
    | some seg2 =>
      rw [hl] at h
      cases h
      unfold GetOrAttachToShmID
      rw [hl]
    | none =>
      rw [hl] at h
      cases hw : w.segSize shm_id with
      | none => rw [hw] at h; cases h
      | some sz =>
        rw [hw] at h
        cases h
        unfold GetOrAttachToShmID
        rw [alistLookup_insert_self]

/-- C2 witness: with segment 7 cached, the call returns the cached handle
unchanged; from the empty cache it attaches, caches and returns a fresh
handle; calling again returns the same handle. -/
theorem getOrAttach_cache_semantics_witness :
    GetOrAttachToShmID w0 sC 7 = Except.ok (seg7, sC) ∧
    GetOrAttachToShmID w0 s0 7 = Except.ok (seg7, sC) ∧
    GetOrAttachToShmID w0 sC 7 = Except.ok (seg7, sC) :=
  ⟨(getOrAttach_cache_semantics w0 sC 7).1 seg7 rfl,
   (getOrAttach_cache_semantics w0 s0 7).2.1 16 rfl rfl,
   (getOrAttach_cache_semantics w0 s0 7).2.2 seg7 sC
     ((getOrAttach_cache_semantics w0 s0 7).2.1 16 rfl rfl)⟩

/-- C10: `GetOrAttachToShmID(id)` modifies at most the cache entry for
`id` itself — the cache entry of every other key is unchanged by the
call, whether `id` was present or absent. -/
theorem getOrAttach_frame (w : World) (s : ExternalSharedMemoryManager)
    (shm_id k : Nat) (seg : SystemV) (s1 : ExternalSharedMemoryManager)
    (hk : k ≠ shm_id)
    (h : GetOrAttachToShmID w s shm_id = Except.ok (seg, s1)) :
    alistLookup s1.m_AttachedSegments k =
      alistLookup s.m_AttachedSegments k := by
  unfold GetOrAttachToShmID at h
  cases hl : alistLookup s.m_AttachedSegments shm_id with
  | some seg2 =>
    rw [hl] at h
    cases h
    rfl
  | none =>
    rw [hl] at h
    cases hw : w.segSize shm_id with
    | none => rw [hw] at h; cases h
    | some sz =>
      rw [hw] at h
      cases h
      exact alistLookup_insert_ne _ _ _ _ hk

/-- C10 witness: attaching segment 7 from the empty cache leaves the
cache entry of key 3 unchanged. -/
theorem getOrAttach_frame_witness :
    alistLookup sC.m_AttachedSegments 3 =
      alistLookup s0.m_AttachedSegments 3 :=
  getOrAttach_frame w0 s0 7 3 seg7 sC (by decide)
    ((getOrAttach_cache_semantics w0 s0 7).2.1 16 rfl rfl)

/-- C6: `Release(id)` removes `id` from the cache when present; when no
entry exists it is a no-op that leaves the whole state unchanged; it
never affects any other key's cache entry; and it is idempotent. -/
theorem release_semantics (s : ExternalSharedMemoryManager)
    (shm_id : Nat) :
    alistLookup (s.Release shm_id).m_AttachedSegments shm_id = none ∧
    (alistLookup s.m_AttachedSegments shm_id = none →
      s.Release shm_id = s) ∧
    (∀ k, k ≠ shm_id →
      alistLookup (s.Release shm_id).m_AttachedSegments k =
        alistLookup s.m_AttachedSegments k) ∧
    (s.Release shm_id).Release shm_id = s.Release shm_id := by
  refine ⟨alistLookup_erase_self _ _, ?_, ?_, ?_⟩
  · intro h
    unfold ExternalSharedMemoryManager.Release
    rw [alistErase_absent _ _ h]
  · intro k hk
    exact alistLookup_erase_ne _ _ _ hk
  · unfold ExternalSharedMemoryManager.Release
    rw [alistErase_idem]

/-- C6 witness: releasing segment 7 empties its cache entry, releasing a
never-attached id is a no-op, key 3's entry is untouched, and a second
release changes nothing. -/
theorem release_semantics_witness :
    alistLookup (sC.Release 7).m_AttachedSegments 7 = none ∧
    s0.Release 7 = s0 ∧
    alistLookup (sC.Release 7).m_AttachedSegments 3 =
      alistLookup sC.m_AttachedSegments 3 ∧
    (sC.Release 7).Release 7 = sC.Release 7 :=
  ⟨(release_semantics sC 7).1,
   (release_semantics s0 7).2.1 rfl,
   (release_semantics sC 7).2.2.1 3 (by decide),
   (release_semantics sC 7).2.2.2⟩

/-- C1 counterexample: on segment 7 of size 16, the pair
offset = 2^64 − 8, length = 24 has offset + length > 16, yet `Acquire`
succeeds (the `size_t` sum wraps to 16 and passes `CHECK_LE`), so the
claim that every pair with offset + length > handle.size fails is false
at this input. -/
theorem acquire_bounds_cex :
    isOkB (Acquire w0 s0 7 (2 ^ 64 - 8) 24) = true ∧
    16 < 2 ^ 64 - 8 + 24 := by
  constructor
  · rfl
  · decide

/-- C1 (amended): whenever the true sum offset + length stays below 2^64
(no `size_t` wraparound), `Acquire` fails the range check exactly when
offset + length > handle.size, and with offset + length ≤ handle.size it
succeeds with a view descriptor over `[offset, offset + length)`. -/
theorem acquire_bounds_amended (w : World)
    (s : ExternalSharedMemoryManager) (shm_id offset size : Nat)
    (seg : SystemV) (s1 : ExternalSharedMemoryManager)
    (hg : GetOrAttachToShmID w s shm_id = Except.ok (seg, s1))
    (hlt : offset + size < U64) :
    (seg.size < offset + size →
      Acquire w s shm_id offset size =
        Except.error AcquireError.rangeError) ∧
    (offset + size ≤ seg.size →
      Acquire w s shm_id offset size =
        Except.ok (⟨seg, offset, size⟩,
          addView s1 ⟨seg, offset, size⟩)) := by
  constructor
  · intro hgt
    rw [acquire_of_getOk w s shm_id offset size seg s1 hg,
      if_neg (by rw [Nat.mod_eq_of_lt hlt]; omega)]
  · intro hle
    rw [acquire_of_getOk w s shm_id offset size seg s1 hg,
      if_pos (by rw [Nat.mod_eq_of_lt hlt]; exact hle)]

/-- C1 (amended) witness: on cached segment 7 of size 16, the pair
(0, 24) fails the range check and the pair (0, 16) yields the view over
`[0, 16)`. -/
theorem acquire_bounds_amended_witness :
    Acquire w0 sC 7 0 24 = Except.error AcquireError.rangeError ∧
    Acquire w0 sC 7 0 16 =
      Except.ok (⟨seg7, 0, 16⟩, addView sC ⟨seg7, 0, 16⟩) :=
  ⟨(acquire_bounds_amended w0 sC 7 0 24 seg7 sC rfl (by decide)).1
      (by decide),
   (acquire_bounds_amended w0 sC 7 0 16 seg7 sC rfl (by decide)).2
      (by decide)⟩

/-- C9: `Acquire`'s range validation compares the wrapped 64-bit sum
(offset + size) mod 2^64 against the segment size: whenever the true sum
is at least 2^64 but the wrapped sum is at most the segment size, the
check passes and `Acquire` returns a view whose range
`[offset, offset + size)` extends outside the segment. -/
theorem acquire_overflow_wrap (w : World)
    (s : ExternalSharedMemoryManager) (shm_id offset size : Nat)
    (seg : SystemV) (s1 : ExternalSharedMemoryManager)
    (hg : GetOrAttachToShmID w s shm_id = Except.ok (seg, s1))
    (hseg : seg.size < U64) (hsum : U64 ≤ offset + size)
    (hwrap : (offset + size) % U64 ≤ seg.size) :
    Acquire w s shm_id offset size =
      Except.ok (⟨seg, offset, size⟩, addView s1 ⟨seg, offset, size⟩) ∧
    seg.size < offset + size := by
  constructor
  · rw [acquire_of_getOk w s shm_id offset size seg s1 hg, if_pos hwrap]
  · exact lt_of_lt_of_le hseg hsum

/-- C9 witness: on cached segment 7 of size 16, offset = 2^64 − 8 and
size = 24 wrap to 16 ≤ 16, so the check passes and the returned view's
range ends past the segment. -/
theorem acquire_overflow_wrap_witness :
    Acquire w0 sC 7 (2 ^ 64 - 8) 24 =
      Except.ok (⟨seg7, 2 ^ 64 - 8, 24⟩,
        addView sC ⟨seg7, 2 ^ 64 - 8, 24⟩) ∧
    seg7.size < 2 ^ 64 - 8 + 24 :=
  acquire_overflow_wrap w0 sC 7 (2 ^ 64 - 8) 24 seg7 sC rfl (by decide)
    (by decide) (by decide)

/-- Acquiring a view never touches segment memory. -/
theorem acquire_preserves_mem (w : World) (s : ExternalSharedMemoryManager)
    (shm_id offset size : Nat) (d : PartialSegmentDescriptor)
    (s2 : ExternalSharedMemoryManager)
    (h : Acquire w s shm_id offset size = Except.ok (d, s2)) :
    s2.mem = s.mem := by
  obtain ⟨s1, hg, _, _, hs2, _⟩ :=
    acquire_ok_shape w s shm_id offset size d s2 h
  subst hs2
  exact (getOrAttach_preserves w s shm_id d.segment s1 hg).1

/-- Concrete view over bytes `[0, 16)` of segment 7. -/
def dV : PartialSegmentDescriptor := ⟨seg7, 0, 16⟩

/-- Manager state in which `dV` is a live view of cached segment 7. -/
def sV : ExternalSharedMemoryManager := addView sC dV

/-- C4: after `Acquire` (which creates a view) and `Release(id)`, the id
is gone from the cache; a subsequent `GetOrAttachToShmID` performs
exactly one additional attach (the attach counter advances by one and the
returned handle carries the fresh instance number); and the view created
before the `Release` keeps its segment held and remains readable and
writable. -/
theorem release_then_reattach (w : World)
    (s : ExternalSharedMemoryManager) (shm_id offset size : Nat)
    (d : PartialSegmentDescriptor) (s1 : ExternalSharedMemoryManager)
    (sz : Nat)
    (hA : Acquire w s shm_id offset size = Except.ok (d, s1))
    (hw : w.segSize shm_id = some sz) :
    alistLookup (s1.Release shm_id).m_AttachedSegments shm_id = none ∧
    GetOrAttachToShmID w (s1.Release shm_id) shm_id =
      Except.ok (⟨shm_id, (s1.Release shm_id).nextInst, sz⟩,
        { s1.Release shm_id with
          m_AttachedSegments :=
            alistInsert (s1.Release shm_id).m_AttachedSegments shm_id
              ⟨shm_id, (s1.Release shm_id).nextInst, sz⟩,
          nextInst := (s1.Release shm_id).nextInst + 1 }) ∧
    (s1.Release shm_id).segmentHeld d.segment = true ∧
    (∀ i, 8 * i + 8 ≤ d.size →
      viewReadWord (s1.Release shm_id) d i =
        Except.ok
          ((s1.Release shm_id).mem d.segment.shm_id (d.offset + 8 * i))) ∧
    (∀ i v, 8 * i + 8 ≤ d.size →
      isOkB (viewWriteWord (s1.Release shm_id) d i v) = true) := by
  have hnone : alistLookup (s1.Release shm_id).m_AttachedSegments shm_id
      = none := alistLookup_erase_self _ _
  have hd : d ∈ s1.liveViews :=
    acquire_view_live w s shm_id offset size d s1 hA
  have hd2 : d ∈ (s1.Release shm_id).liveViews := by
    rw [release_liveViews]
    exact hd
  have hheld : (s1.Release shm_id).segmentHeld d.segment = true :=
    segmentHeld_of_view _ _ hd2
  refine ⟨hnone, ?_, hheld, ?_, ?_⟩
  · unfold GetOrAttachToShmID
    rw [hnone, hw]
  · intro i hi
    simp [viewReadWord, hheld, hi]
  · intro i v hi
    simp [viewWriteWord, isOkB, hheld, hi]

/-- C4 witness: acquire the view `dV` over cached segment 7, release id
7, then observe the empty cache entry, the fresh re-attach with a new
instance number, and the still-live, readable, writable view. -/
theorem release_then_reattach_witness :
    alistLookup (sV.Release 7).m_AttachedSegments 7 = none ∧
    GetOrAttachToShmID w0 (sV.Release 7) 7 =
      Except.ok (⟨7, (sV.Release 7).nextInst, 16⟩,
        { sV.Release 7 with
          m_AttachedSegments :=
            alistInsert (sV.Release 7).m_AttachedSegments 7
              ⟨7, (sV.Release 7).nextInst, 16⟩,
          nextInst := (sV.Release 7).nextInst + 1 }) ∧
    (sV.Release 7).segmentHeld dV.segment = true ∧
    viewReadWord (sV.Release 7) dV 1 =
      Except.ok ((sV.Release 7).mem 7 8) ∧
    isOkB (viewWriteWord (sV.Release 7) dV 1 99) = true :=
  ⟨(release_then_reattach w0 sC 7 0 16 dV sV 16 rfl rfl).1,
   (release_then_reattach w0 sC 7 0 16 dV sV 16 rfl rfl).2.1,
   (release_then_reattach w0 sC 7 0 16 dV sV 16 rfl rfl).2.2.1,
   (release_then_reattach w0 sC 7 0 16 dV sV 16 rfl rfl).2.2.2.1 1
     (by decide),
   (release_then_reattach w0 sC 7 0 16 dV sV 16 rfl rfl).2.2.2.2 1 99
     (by decide)⟩

/-- C3 counterexample: on a request with no shared-memory locator the
handler reaches `CHECK(mdesc)` with a null descriptor and the outcome is
a fatal process abort, not a request-level failure response — the claim
that errors are converted into failure responses and never abort the
worker process is false at this input. -/
theorem executeRPC_abort_cex :
    (ExecuteRPC w0 s0 ⟨42, none⟩).aborted = true ∧
    (ExecuteRPC w0 s0 ⟨42, none⟩).respBatchId = none := by
  exact ⟨rfl, rfl⟩

/-- C3 (amended): every error on the handler path — absent locator,
attach failure or range violation inside `Acquire`, first-word identity
mismatch, sentinel mismatch — fires a fatal `CHECK`, aborting the
process; no error is converted into a request-level failure response. -/
theorem executeRPC_errors_abort (w : World)
    (s : ExternalSharedMemoryManager) (input : Input) :
    (input.sysv = none →
      ExecuteRPC w s input =
        RpcOutcome.fatalAbort CheckFailure.nullDescriptor s) ∧
    (∀ loc e, input.sysv = some loc →
      Acquire w s loc.shm_id loc.offset loc.size = Except.error e →
      (ExecuteRPC w s input).aborted = true) ∧
    (∀ loc d s1, input.sysv = some loc →
      Acquire w s loc.shm_id loc.offset loc.size = Except.ok (d, s1) →
      viewReadWord s1 d 0 ≠ Except.ok input.batch_id →
      (ExecuteRPC w s input).aborted = true) ∧
    (∀ loc d s1, input.sysv = some loc →
      Acquire w s loc.shm_id loc.offset loc.size = Except.ok (d, s1) →
      viewReadWord s1 d 1 ≠ Except.ok MARKER →
      (ExecuteRPC w s input).aborted = true) := by
  refine ⟨?_, ?_, ?_, ?_⟩
  · intro h
    unfold ExecuteRPC
    rw [h]
  · intro loc e hs hacq
    cases e with
    | attachError e2 => simp [ExecuteRPC, RpcOutcome.aborted, hs, hacq]
    | rangeError => simp [ExecuteRPC, RpcOutcome.aborted, hs, hacq]
  · intro loc d s1 hs hacq hr
    cases hv : viewReadWord s1 d 0 with
    | error e => simp [ExecuteRPC, RpcOutcome.aborted, hs, hacq, hv]
    | ok a0 =>
      have ha : a0 ≠ input.batch_id := by
        intro he
        exact hr (by rw [hv, he])
      simp [ExecuteRPC, RpcOutcome.aborted, hs, hacq, hv, ha]
  · intro loc d s1 hs hacq hr
    cases hv : viewReadWord s1 d 0 with
    | error e => simp [ExecuteRPC, RpcOutcome.aborted, hs, hacq, hv]
    | ok a0 =>
      by_cases ha : a0 = input.batch_id
      · cases hv1 : viewReadWord s1 d 1 with
        | error e => simp [ExecuteRPC, RpcOutcome.aborted, hs, hacq, hv, ha, hv1]
        | ok a1 =>
          have hm : a1 ≠ MARKER := by
            intro he
            exact hr (by rw [hv1, he])
          simp [ExecuteRPC, RpcOutcome.aborted, hs, hacq, hv, ha, hv1, hm]
      · simp [ExecuteRPC, RpcOutcome.aborted, hs, hacq, hv, ha]

/-- C3 (amended) witness: the absent-locator request aborts with the
null-descriptor check; a request for a nonexistent segment id aborts on
the attach failure. -/
theorem executeRPC_errors_abort_witness :
    ExecuteRPC w0 s0 ⟨42, none⟩ =
      RpcOutcome.fatalAbort CheckFailure.nullDescriptor s0 ∧
    (ExecuteRPC w0 s0 ⟨42, some ⟨9, 0, 16⟩⟩).aborted = true :=
  ⟨(executeRPC_errors_abort w0 s0 ⟨42, none⟩).1 rfl,
   (executeRPC_errors_abort w0 s0 ⟨42, some ⟨9, 0, 16⟩⟩).2.1 ⟨9, 0, 16⟩
     (AcquireError.attachError AttachError.noSuchSegment) rfl rfl⟩

/-- C5: on a request whose acquired view's first word equals the
request's batch id and whose second word is the sentinel `0xDEADBEEF`,
the handler completes a response echoing the batch id and overwrites the
marker word with the batch id. -/
theorem executeRPC_success (w : World) (s : ExternalSharedMemoryManager)
    (input : Input) (loc : SysVLocator) (d : PartialSegmentDescriptor)
    (s1 : ExternalSharedMemoryManager)
    (hs : input.sysv = some loc)
    (hacq : Acquire w s loc.shm_id loc.offset loc.size = Except.ok (d, s1))
    (h16 : 16 ≤ d.size)
    (h0 : s1.mem d.segment.shm_id d.offset = input.batch_id)
    (h1 : s1.mem d.segment.shm_id (d.offset + 8) = MARKER) :
    (ExecuteRPC w s input).respBatchId = some input.batch_id ∧
    (ExecuteRPC w s input).finalState.mem d.segment.shm_id (d.offset + 8)
      = input.batch_id := by
  have hheld : s1.segmentHeld d.segment = true :=
    segmentHeld_of_view s1 d
      (acquire_view_live w s loc.shm_id loc.offset loc.size d s1 hacq)
  have h8 : (8 : Nat) ≤ d.size := by omega
  have hr0 : viewReadWord s1 d 0 = Except.ok input.batch_id := by
    simp [viewReadWord, hheld, h8, h0]
  have hr1 : viewReadWord s1 d 1 = Except.ok MARKER := by
    simp [viewReadWord, hheld, h16, h1]
  have hw1 : viewWriteWord s1 d 1 input.batch_id =
      Except.ok
        { s1 with
          mem := memUpd s1.mem d.segment.shm_id (d.offset + 8)
            input.batch_id } := by
    simp [viewWriteWord, hheld, h16]
  have hrun : ExecuteRPC w s input =
      RpcOutcome.response ⟨input.batch_id⟩
        (dropView
          { s1 with
            mem := memUpd s1.mem d.segment.shm_id (d.offset + 8)
              input.batch_id } d) := by
    simp [ExecuteRPC, RpcOutcome.aborted, hs, hacq, hr0, hr1, hw1]
  rw [hrun]
  refine ⟨rfl, ?_⟩
  simp [RpcOutcome.finalState, dropView, memUpd]

/-- C5 witness: the end-to-end scenario — shm id 7, offset 0, size 16,
segment pre-populated with `[42, 0xDEADBEEF]`, request batch id 42 — the
handler responds 42 and the marker word becomes 42. -/
theorem executeRPC_success_witness :
    (ExecuteRPC w0 sC ⟨42, some ⟨7, 0, 16⟩⟩).respBatchId = some 42 ∧
    (ExecuteRPC w0 sC ⟨42, some ⟨7, 0, 16⟩⟩).finalState.mem 7 8 = 42 :=
  executeRPC_success w0 sC ⟨42, some ⟨7, 0, 16⟩⟩ ⟨7, 0, 16⟩ dV sV rfl rfl
    (by decide) rfl rfl

/-- C7: on a request whose acquired view's first word differs from the
request's batch id, or whose marker word differs from the sentinel, the
handler fails validation (fatally) and no write occurs: all segment
memory, the marker word included, is exactly as before the call. -/
theorem executeRPC_validation_no_write (w : World)
    (s : ExternalSharedMemoryManager) (input : Input) (loc : SysVLocator)
    (d : PartialSegmentDescriptor) (s1 : ExternalSharedMemoryManager)
    (hs : input.sysv = some loc)
    (hacq : Acquire w s loc.shm_id loc.offset loc.size = Except.ok (d, s1))
    (h16 : 16 ≤ d.size)
    (hmm : s1.mem d.segment.shm_id d.offset ≠ input.batch_id ∨
      s1.mem d.segment.shm_id (d.offset + 8) ≠ MARKER) :
    (ExecuteRPC w s input).aborted = true ∧
    (ExecuteRPC w s input).finalState.mem = s.mem := by
  have hmem : s1.mem = s.mem :=
    acquire_preserves_mem w s loc.shm_id loc.offset loc.size d s1 hacq
  have hheld : s1.segmentHeld d.segment = true :=
    segmentHeld_of_view s1 d
      (acquire_view_live w s loc.shm_id loc.offset loc.size d s1 hacq)
  have h8 : (8 : Nat) ≤ d.size := by omega
  have hr0 : viewReadWord s1 d 0 =
      Except.ok (s1.mem d.segment.shm_id d.offset) := by
    simp [viewReadWord, hheld, h8]
  have hr1 : viewReadWord s1 d 1 =
      Except.ok (s1.mem d.segment.shm_id (d.offset + 8)) := by
    simp [viewReadWord, hheld, h16]
  have hrun : ∃ r, ExecuteRPC w s input = RpcOutcome.fatalAbort r s1 := by
    by_cases h0c : s1.mem d.segment.shm_id d.offset = input.batch_id
    · rcases hmm with hne | hne
      · exact absurd h0c hne
      · exact ⟨CheckFailure.markerMismatch,
          by simp [ExecuteRPC, RpcOutcome.aborted, hs, hacq, hr0, hr1, h0c, hne]⟩
    · exact ⟨CheckFailure.batchIdMismatch,
        by simp [ExecuteRPC, RpcOutcome.aborted, hs, hacq, hr0, h0c]⟩
  obtain ⟨r, hrun⟩ := hrun
  rw [hrun]
  exact ⟨rfl, hmem⟩

/-- C7 witness: segment 7 holds batch id 42 but the request claims 43;
the handler aborts on the identity check and every memory word of every
segment is unchanged. -/
theorem executeRPC_validation_no_write_witness :
    (ExecuteRPC w0 sC ⟨43, some ⟨7, 0, 16⟩⟩).aborted = true ∧
    (ExecuteRPC w0 sC ⟨43, some ⟨7, 0, 16⟩⟩).finalState.mem = sC.mem :=
  executeRPC_validation_no_write w0 sC ⟨43, some ⟨7, 0, 16⟩⟩ ⟨7, 0, 16⟩
    dV sV rfl rfl (by decide) (Or.inl (by decide))

/-- C8: word access through a live view is bounds-checked against the
view length: an access whose full word lies inside `[0, length)` reads or
writes exactly the cell at `offset + 8·i` of the view's own range, and an
access at a byte offset at or past `length` fails with a range error and
performs no read or write. -/
theorem viewAccess_bounds (s : ExternalSharedMemoryManager)
    (d : PartialSegmentDescriptor) (i v : Nat)
    (hheld : s.segmentHeld d.segment = true) :
    (8 * i + 8 ≤ d.size →
      viewReadWord s d i =
        Except.ok (s.mem d.segment.shm_id (d.offset + 8 * i)) ∧
      viewWriteWord s d i v =
        Except.ok
          { s with
            mem := memUpd s.mem d.segment.shm_id (d.offset + 8 * i) v }) ∧
    (d.size ≤ 8 * i →
      viewReadWord s d i = Except.error AccessError.rangeError ∧
      viewWriteWord s d i v = Except.error AccessError.rangeError) := by
  constructor
  · intro hin
    constructor
    · simp [viewReadWord, hheld, hin]
    · simp [viewWriteWord, hheld, hin]
  · intro hout
    have hni : ¬ (8 * i + 8 ≤ d.size) := by omega
    constructor
    · simp [viewReadWord, hheld, hni]
    · simp [viewWriteWord, hheld, hni]

/-- C8 witness: on the live 16-byte view `dV`, word 1 is readable and
writable in place, while word 2 (byte offset 16, outside `[0, 16)`)
fails with a range error on both read and write. -/
theorem viewAccess_bounds_witness :
    (viewReadWord sV dV 1 = Except.ok (sV.mem 7 8) ∧
      viewWriteWord sV dV 1 99 =
        Except.ok { sV with mem := memUpd sV.mem 7 8 99 }) ∧
    (viewReadWord sV dV 2 = Except.error AccessError.rangeError ∧
      viewWriteWord sV dV 2 99 = Except.error AccessError.rangeError) :=
  ⟨(viewAccess_bounds sV dV 1 99 rfl).1 (by decide),
   (viewAccess_bounds sV dV 2 99 rfl).2 (by decide)⟩
